import Mathlib

/-!
# Verification of the gonpi request-execution core

A shallow embedding, in Lean 4, of the execution core of the `gonpi`
Go client library: the exponential-backoff retry engine
(`doRequestWithRetry`, `doRequest`, `shouldRetry`), the TTL cache store
(`getCached`, `setCached`, `cleanupCache`), the single-item fetch
orchestrator (`GetProviderByNPI`), the batch orchestrator
(`GetProvidersByNPIs`) together with its concurrency semaphore, and the
query-parameter builder (`buildQueryParams`).

Modelling conventions:
* Go `error` values are embedded as the inductive `GoError`; the concrete
  `*APIError` struct keeps its status code and message, `fmt.Errorf`
  wrapping with `%w` becomes the `wrap` constructor, and the terminal
  "max retries exceeded" wrapper becomes `maxRetriesExceeded` (its
  `Option` argument mirrors Go's `lastErr` variable that starts as `nil`).
* Durations (`time.Duration`, nanoseconds) and the float64 backoff
  arithmetic are embedded as exact rationals `ℚ`; float64 rounding and
  the int64 truncation of the computed delay are idealised away (for the
  documented default configuration the float64 computation is exact).
* The HTTP transport is an oracle: each attempt receives a
  `TransportResult` (a transport-level failure or a status/body response
  whose JSON decoding either succeeds or fails).
* Cancellation (`ctx.Done()`) is an oracle `cancelledDuringWait : Nat → Bool`
  telling, for each backoff wait, whether the cancellation signal fires
  before that wait completes.
* The retry engine is instrumented to return, besides its outcome, the
  number of transport attempts actually performed and the list of backoff
  delays actually waited, so that attempt-count and delay claims are
  statements about the embedded code.
-/

namespace Gonpi

/-- Errors produced by the client, mirroring the Go code's error values:
`APIError` is the concrete `*APIError{StatusCode, Message}` struct,
`errorf` a plain `fmt.Errorf` message, `wrap` a `fmt.Errorf("...: %w", cause)`,
`cancelled` the `"request cancelled: %w"` error returned when the backoff
wait loses the race against `ctx.Done()`, `maxRetriesExceeded` the
`"max retries exceeded: %w"` terminal error (wrapping Go's `lastErr`,
which starts as `nil`, hence the `Option`), and `batchFailure` the
`"batch fetch completed with %d errors: %v"` aggregate error. -/
inductive GoError where
  | APIError (StatusCode : Int) (Message : String)
  | errorf (msg : String)
  | wrap (msg : String) (cause : GoError)
  | cancelled
  | maxRetriesExceeded (last : Option GoError)
  | batchFailure (count : Nat) (first : GoError)

/-- Retry configuration (`RetryConfig`). `MaxRetries` is Go's
`MaxRetries int` (the claims only concern `R ≥ 0`); the two delays are
`time.Duration` values in nanoseconds and the multiplier is a `float64`,
all embedded as exact rationals. -/
structure RetryConfig where
  MaxRetries : Nat
  InitialDelay : ℚ
  MaxDelay : ℚ
  BackoffMultiplier : ℚ
deriving DecidableEq, Repr

/-- `shouldRetry` from the source: a `*APIError` is retried exactly when
its status is `>= 500` or `== 429`; every other error (network-level,
decode failure, ...) is retried. -/
def shouldRetry : GoError → Bool
  | .APIError status _ => 500 ≤ status || status == 429
  | _ => true

/-- The transport oracle for one attempt: either the HTTP round trip
itself fails (`httpClient.Do` returns an error), or a response arrives
with a status code and body, whose JSON decoding succeeds or not. -/
inductive TransportResult where
  | failure (msg : String)
  | response (statusCode : Int) (decodeOk : Bool) (body : String)
deriving DecidableEq, Repr

/-- `doRequest` from the source, as a function of the transport oracle:
a transport failure is wrapped as `"http request failed: %w"`; a response
with status `!= http.StatusOK` (i.e. `!= 200`) becomes an `*APIError`
carrying that status and the `"API returned status %d: %s"` message; on
a 200 the body is decoded, a decode failure being wrapped as
`"failed to decode response: %w"`. -/
def doRequest : TransportResult → Except GoError Unit
  | .failure msg => .error (.wrap "http request failed" (.errorf msg))
  | .response statusCode decodeOk body =>
    if statusCode ≠ 200 then
      .error (.APIError statusCode
        ("API returned status " ++ toString statusCode ++ ": " ++ body))
    else if decodeOk then
      .ok ()
    else
      .error (.wrap "failed to decode response" (.errorf "json decode error"))

/-- The backoff delay computed at the top of the retry loop for iteration
`attempt ≥ 1` (nanoseconds, as an exact rational):
`delay := InitialDelay * BackoffMultiplier^(attempt-1)`, then capped at
`MaxDelay` (`if delay > MaxDelay { delay = MaxDelay }`). -/
def backoffDelay (cfg : RetryConfig) (attempt : Nat) : ℚ :=
  let delay := cfg.InitialDelay * cfg.BackoffMultiplier ^ (attempt - 1)
  if cfg.MaxDelay < delay then cfg.MaxDelay else delay

/-- Instrumented result of a `doRequestWithRetry` run: the returned
value, the number of `doRequest` attempts actually performed, and the
backoff delays actually waited to completion (in order). -/
structure RetryResult where
  outcome : Except GoError Unit
  attemptsMade : Nat
  waits : List ℚ

/-- The body of `doRequestWithRetry`'s `for attempt := 0; attempt <=
MaxRetries; attempt++` loop, with `fuel = MaxRetries + 1 - attempt`
remaining iterations and Go's `lastErr` threaded through. Each iteration
with `attempt > 0` first waits `backoffDelay cfg attempt`, racing the
cancellation signal: if `cancelledDuringWait attempt` the engine returns
the `cancelled` error at once, performing no further attempt. Otherwise
the attempt runs; success returns; a failure updates `lastErr` and either
returns immediately (`!shouldRetry`) or continues; falling off the loop
returns `maxRetriesExceeded lastErr`. -/
def retryGo (cfg : RetryConfig) (attempts : Nat → Except GoError Unit)
    (cancelledDuringWait : Nat → Bool) :
    Nat → Nat → Option GoError → RetryResult
  | 0, _, lastErr => ⟨.error (.maxRetriesExceeded lastErr), 0, []⟩
  | fuel + 1, attempt, _ =>
    if 0 < attempt && cancelledDuringWait attempt then
      ⟨.error .cancelled, 0, []⟩
    else
      let waitsHere : List ℚ :=
        if 0 < attempt then [backoffDelay cfg attempt] else []
      match attempts attempt with
      | .ok _ => ⟨.ok (), 1, waitsHere⟩
      | .error e =>
        if shouldRetry e then
          let r := retryGo cfg attempts cancelledDuringWait fuel (attempt + 1) (some e)
          ⟨r.outcome, r.attemptsMade + 1, waitsHere ++ r.waits⟩
        else
          ⟨.error e, 1, waitsHere⟩

/-- `doRequestWithRetry` from the source: run the loop from `attempt = 0`
with `MaxRetries + 1` available iterations and `lastErr = nil`. -/
def doRequestWithRetry (cfg : RetryConfig) (attempts : Nat → Except GoError Unit)
    (cancelledDuringWait : Nat → Bool) : RetryResult :=
  retryGo cfg attempts cancelledDuringWait (cfg.MaxRetries + 1) 0 none

/-! ## Cache store -/

/-- Provider record. The execution core treats provider values opaquely
(it never inspects their fields), so only the `Number` field of the wire
data model is kept. -/
structure Provider where
  Number : String
deriving DecidableEq, Repr

/-- Time instants and durations in nanoseconds (Go's `time.Time` /
`time.Duration`), embedded as integers. -/
abbrev GoTime := Int

/-- Lookup in an association-list embedding of a Go `map`. -/
def assocFind {α : Type} (l : List (String × α)) (k : String) : Option α :=
  match l with
  | [] => none
  | (k1, v) :: t => if k1 = k then some v else assocFind t k

/-- Insert-or-replace in an association-list embedding of a Go `map`
(`m[k] = v`). -/
def assocInsert {α : Type} (l : List (String × α)) (k : String) (v : α) :
    List (String × α) :=
  match l with
  | [] => [(k, v)]
  | (k1, v1) :: t =>
    if k1 = k then (k, v) :: t else (k1, v1) :: assocInsert t k v

/-- `cacheEntry`: a cached provider plus its absolute expiry instant. -/
structure CacheEntry where
  provider : Provider
  expiresAt : GoTime
deriving DecidableEq, Repr

/-- `cacheStore`: the enabled flag and the entry map (the `sync.RWMutex`
has no observable content in a sequential embedding; the operations that
acquire it are tracked as events by the orchestrator model below). -/
structure CacheStore where
  enabled : Bool
  data : List (String × CacheEntry)
deriving DecidableEq, Repr

/-- The fixed default TTL hard-coded in `setCached`:
`5 * time.Minute` in nanoseconds. -/
def defaultCacheTTL : GoTime := 5 * 60 * 1000000000

/-- `getCached` from the source, with `time.Now()` passed explicitly:
a miss when no entry exists or `now.After(entry.expiresAt)` (strictly
later than the expiry); otherwise the cached provider. It never mutates
the store. -/
def getCached (c : CacheStore) (now : GoTime) (npi : String) : Option Provider :=
  match assocFind c.data npi with
  | none => none
  | some entry => if entry.expiresAt < now then none else some entry.provider

/-- `setCached` from the source, with `time.Now()` passed explicitly:
creates or replaces the entry for `npi` with
`expiresAt = now + defaultCacheTTL`. -/
def setCached (c : CacheStore) (now : GoTime) (npi : String)
    (provider : Provider) : CacheStore :=
  { c with data := assocInsert c.data npi ⟨provider, now + defaultCacheTTL⟩ }

/-- One pass of `cleanupCache`'s ticker body, with `time.Now()` passed
explicitly: deletes every entry whose expiry has passed
(`now.After(entry.expiresAt)`). -/
def sweepCache (c : CacheStore) (now : GoTime) : CacheStore :=
  { c with data := c.data.filter (fun e => !(decide (e.2.expiresAt < now))) }

/-! ## Single-item fetch orchestrator -/

/-- Observable events of one `GetProviderByNPI` run, in order.
`cacheRead` and `cacheWrite` are the two operations that acquire the
cache lock (`getCached` / `setCached`); `search` is the network fetch
(`SearchProviders`, i.e. the retry engine plus transport). -/
inductive FetchEvent where
  | cacheRead (npi : String)
  | cacheWrite (npi : String)
  | search (npi : String)
deriving DecidableEq, Repr

/-- Whether an event is a cache-store operation (and hence acquires the
cache lock). -/
def FetchEvent.isCacheOp : FetchEvent → Bool
  | .cacheRead _ => true
  | .cacheWrite _ => true
  | .search _ => false

/-- Result of one `GetProviderByNPI` run: the returned value, the cache
store afterwards, and the events performed. -/
structure GetResult where
  res : Except GoError Provider
  cache : CacheStore
  events : List FetchEvent

/-- The part of `GetProviderByNPI` after the cache check: run
`SearchProviders` (abstracted as the oracle `search`), wrap a failure as
`"failed to get provider by NPI %s: %w"`, report an empty result list as
the `"no provider found with NPI %s"` error, and otherwise take the first
provider, caching it iff the cache is enabled. -/
def fetchPhase (c : CacheStore) (now : GoTime) (npi : String)
    (search : Except GoError (List Provider)) : GetResult :=
  match search with
  | .error e =>
    ⟨.error (.wrap ("failed to get provider by NPI " ++ npi) e), c, [.search npi]⟩
  | .ok [] =>
    ⟨.error (.errorf ("no provider found with NPI " ++ npi)), c, [.search npi]⟩
  | .ok (p :: _) =>
    if c.enabled then
      ⟨.ok p, setCached c now npi p, [.search npi, .cacheWrite npi]⟩
    else
      ⟨.ok p, c, [.search npi]⟩

/-- `GetProviderByNPI` from the source: reject an empty NPI before any
cache or network interaction; when the cache is enabled (checked before
any lock is taken) consult `getCached` and return a hit immediately;
otherwise fetch. -/
def getProviderByNPI (c : CacheStore) (now : GoTime) (npi : String)
    (search : Except GoError (List Provider)) : GetResult :=
  if npi = "" then
    ⟨.error (.errorf "npi cannot be empty"), c, []⟩
  else if c.enabled then
    match getCached c now npi with
    | some p => ⟨.ok p, c, [.cacheRead npi]⟩
    | none =>
      let r := fetchPhase c now npi search
      ⟨r.res, r.cache, .cacheRead npi :: r.events⟩
  else
    fetchPhase c now npi search

/-- A sequence of `GetProviderByNPI` calls against one client, each with
its own clock instant, NPI and transport behaviour; returns the final
cache store and the concatenated event trace. -/
def runFetches (c : CacheStore) :
    List (GoTime × String × Except GoError (List Provider)) →
    CacheStore × List FetchEvent
  | [] => (c, [])
  | (now, npi, search) :: rest =>
    let r := getProviderByNPI c now npi search
    let rec1 := runFetches r.cache rest
    (rec1.1, r.events ++ rec1.2)

/-! ## Batch fetch orchestrator -/

/-- The fan-out/fan-in body of `GetProvidersByNPIs`: one
`GetProviderByNPI` per key (abstracted as the per-key oracle `fetch`),
successes inserted into the shared results map, each failure wrapped as
`"failed to fetch NPI %s: %w"` and collected. The Go code runs the keys
concurrently (gated by the semaphore modelled separately below) and
waits for all of them; since every key's goroutine runs to completion,
the embedding processes the keys sequentially in input order, which is
one admissible completion order. -/
def batchFanOut (fetch : String → Except GoError Provider) :
    List String → List (String × Provider) × List GoError
  | [] => ([], [])
  | npi :: rest =>
    let acc := batchFanOut fetch rest
    match fetch npi with
    | .ok p => (assocInsert acc.1 npi p, acc.2)
    | .error e => (acc.1, .wrap ("failed to fetch NPI " ++ npi) e :: acc.2)

/-- `GetProvidersByNPIs` from the source: an empty key list is rejected
with `"npi list cannot be empty"`; otherwise all keys are fetched, and
the partial success map is returned together with the aggregate
`"batch fetch completed with %d errors: %v"` error when at least one key
failed (carrying the failure count and the first failure), or no error
when none did. -/
def getProvidersByNPIs (npis : List String)
    (fetch : String → Except GoError Provider) :
    List (String × Provider) × Option GoError :=
  if npis = [] then
    ([], some (.errorf "npi list cannot be empty"))
  else
    let out := batchFanOut fetch npis
    match out.2 with
    | [] => (out.1, none)
    | e :: rest => (out.1, some (.batchFailure (e :: rest).length e))

/-! ## Batch concurrency semaphore

`GetProvidersByNPIs` gates the per-key fetches with
`semaphore := make(chan struct{}, 5)`: each goroutine sends into the
channel before calling `GetProviderByNPI` and receives from it when done,
so a fetch executes only while holding one of the 5 slots. The small-step
model below has one task per key; `running` means "holding a semaphore
slot and executing the fetch". A `pending` task may start only when
fewer than 5 tasks are running (the channel send blocks otherwise). -/

/-- Phase of one per-key task of a batch call. -/
inductive TaskPhase where
  | pending
  | running
  | done
deriving DecidableEq, Repr

/-- Number of fetches currently in flight (tasks holding a semaphore
slot). -/
def countRunning (ts : List TaskPhase) : Nat :=
  ts.countP (fun t => decide (t = .running))

/-- One scheduler step of a batch call: start a pending task (the
semaphore send succeeds only when fewer than 5 slots are held), or finish
a running task (releasing its slot). -/
inductive BatchStep : List TaskPhase → List TaskPhase → Prop where
  | start (ts : List TaskPhase) (i : Nat) (hp : ts[i]? = some .pending)
      (hc : countRunning ts < 5) : BatchStep ts (ts.set i .running)
  | finish (ts : List TaskPhase) (i : Nat) (hr : ts[i]? = some .running) :
      BatchStep ts (ts.set i .done)

/-- States reachable by a batch call over `n` keys: initially every task
is pending, then any interleaving of starts and finishes permitted by the
semaphore. -/
inductive BatchReachable : List TaskPhase → Prop where
  | init (n : Nat) : BatchReachable (List.replicate n .pending)
  | step {s s1 : List TaskPhase} : BatchReachable s → BatchStep s s1 →
      BatchReachable s1

/-! ## Query parameters -/

/-- `DefaultLimit`: the default result limit per request. -/
def DefaultLimit : Int := 10

/-- `MaxLimit`: the maximum allowed result limit. -/
def MaxLimit : Int := 200

/-- `SearchOptions` from the source (`Limit`/`Skip` are Go `int`s). -/
structure SearchOptions where
  Number : String := ""
  EnumerationType : String := ""
  FirstName : String := ""
  LastName : String := ""
  OrganizationName : String := ""
  TaxonomyDescription : String := ""
  AddressPurpose : String := ""
  City : String := ""
  State : String := ""
  PostalCode : String := ""
  CountryCode : String := ""
  Limit : Int := 0
  Skip : Int := 0
  Pretty : Bool := false
deriving DecidableEq, Repr

/-- `url.Values.Set`: sets the parameter `k` to the single value `v`,
replacing any existing value. -/
def setParam (params : List (String × String)) (k v : String) :
    List (String × String) :=
  assocInsert params k v

/-- `buildQueryParams` from the source, as the sequence of
`url.Values.Set` calls it performs (the encoding order of `url.Values`
is irrelevant to the claims). The limit is defaulted to `DefaultLimit`
when `0`, clamped to `MaxLimit` when above it, and passed through
unchanged otherwise. -/
def buildQueryParams (opts : SearchOptions) : List (String × String) :=
  let params := setParam [] "version" "2.1"
  let params := if opts.Number ≠ "" then
    setParam params "number" opts.Number else params
  let params := if opts.EnumerationType ≠ "" then
    setParam params "enumeration_type" opts.EnumerationType else params
  let params := if opts.FirstName ≠ "" then
    setParam params "first_name" opts.FirstName else params
  let params := if opts.LastName ≠ "" then
    setParam params "last_name" opts.LastName else params
  let params := if opts.OrganizationName ≠ "" then
    setParam params "organization_name" opts.OrganizationName else params
  let params := if opts.TaxonomyDescription ≠ "" then
    setParam params "taxonomy_description" opts.TaxonomyDescription else params
  let params := if opts.AddressPurpose ≠ "" then
    setParam params "address_purpose" opts.AddressPurpose else params
  let params := if opts.City ≠ "" then setParam params "city" opts.City else params
  let params := if opts.State ≠ "" then
    setParam params "state" opts.State else params
  let params := if opts.PostalCode ≠ "" then
    setParam params "postal_code" opts.PostalCode else params
  let params := if opts.CountryCode ≠ "" then
    setParam params "country_code" opts.CountryCode else params
  let limit : Int :=
    if opts.Limit = 0 then DefaultLimit
    else if MaxLimit < opts.Limit then MaxLimit
    else opts.Limit
  let params := setParam params "limit" (toString limit)
  let params := if 0 < opts.Skip then
    setParam params "skip" (toString opts.Skip) else params
  let params := if opts.Pretty then setParam params "pretty" "true" else params
  params

/-! ## Association-list lemmas -/

theorem assocFind_assocInsert {α : Type} (l : List (String × α)) (k k2 : String)
    (v : α) :
    assocFind (assocInsert l k v) k2 = if k = k2 then some v else assocFind l k2 := by
  induction l with
  | nil => simp [assocInsert, assocFind]
  | cons hd tl ih =>
    obtain ⟨k1, v1⟩ := hd
    by_cases h1 : k1 = k
    · subst h1
      by_cases h2 : k1 = k2 <;> simp [assocInsert, assocFind, h2]
    · by_cases h2 : k1 = k2
      · subst h2
        have hne : ¬k = k1 := fun h => h1 h.symm
        simp [assocInsert, assocFind, h1, hne]
      · simp [assocInsert, assocFind, h1, h2, ih]

theorem assocFind_setParam (params : List (String × String)) (k v k2 : String) :
    assocFind (setParam params k v) k2 =
      if k = k2 then some v else assocFind params k2 :=
  assocFind_assocInsert params k k2 v

theorem assocFind_condSet (c : Prop) [Decidable c]
    (params : List (String × String)) (k v k2 : String) (h : k ≠ k2) :
    assocFind (if c then setParam params k v else params) k2 =
      assocFind params k2 := by
  split
  · rw [assocFind_setParam, if_neg h]
  · rfl

/-! ## Claim C10: limit query parameter -/

/-- **C10.** For every `SearchOptions` value, `buildQueryParams` sends a
`limit` query parameter equal to `10` when `Limit` is `0`, equal to `200`
when `Limit` exceeds `200`, and equal to `Limit` itself in all other
cases; in particular a negative `Limit` is passed through unchanged, with
no validation error and no clamping into the documented `1..200` range. -/
theorem c10_limit_param (opts : SearchOptions) :
    assocFind (buildQueryParams opts) "limit" =
      some (toString (if opts.Limit = 0 then (10 : Int)
        else if 200 < opts.Limit then 200 else opts.Limit)) ∧
    (opts.Limit < 0 →
      assocFind (buildQueryParams opts) "limit" = some (toString opts.Limit)) := by
  have key : assocFind (buildQueryParams opts) "limit" =
      some (toString (if opts.Limit = 0 then (10 : Int)
        else if 200 < opts.Limit then 200 else opts.Limit)) := by
    simp only [buildQueryParams]
    rw [assocFind_condSet _ _ _ _ _ (by decide : "pretty" ≠ "limit")]
    rw [assocFind_condSet _ _ _ _ _ (by decide : "skip" ≠ "limit")]
    rw [assocFind_setParam, if_pos rfl]
    simp [DefaultLimit, MaxLimit]
  refine ⟨key, fun hneg => ?_⟩
  have h0 : ¬(opts.Limit = 0) := by intro h; rw [h] at hneg; exact absurd hneg (by norm_num)
  have h200 : ¬((200 : Int) < opts.Limit) := by intro h; linarith
  rw [key, if_neg h0, if_neg h200]

/-- Witness for C10 at a concrete negative limit: `Limit = -5` is sent
through unchanged as `"-5"`. -/
theorem c10_limit_param_witness :
    ({ Limit := -5 : SearchOptions }).Limit < 0 ∧
    assocFind (buildQueryParams { Limit := -5 }) "limit" =
      some (toString ({ Limit := -5 : SearchOptions }).Limit) :=
  ⟨by decide, (c10_limit_param { Limit := -5 }).2 (by decide)⟩

/-! ## Claim C6: cache put/get TTL semantics -/

/-- **C6.** `setCached` creates or replaces the entry for the key with
`expiresAt = now + defaultCacheTTL` (the code's fixed 5-minute TTL), and
a subsequent `getCached` returns the cached provider when performed
before the TTL has elapsed and reports a miss (`none`, the entry neither
resurrected nor extended — `getCached` never mutates the store) when
performed after the TTL has elapsed. -/
theorem c6_cache_put_get (c : CacheStore) (now t : GoTime) (npi : String)
    (p : Provider) :
    assocFind (setCached c now npi p).data npi =
      some ⟨p, now + defaultCacheTTL⟩ ∧
    (t < now + defaultCacheTTL →
      getCached (setCached c now npi p) t npi = some p) ∧
    (now + defaultCacheTTL < t →
      getCached (setCached c now npi p) t npi = none) := by
  have hfind : assocFind (setCached c now npi p).data npi =
      some ⟨p, now + defaultCacheTTL⟩ := by
    simp [setCached, assocFind_assocInsert]
  refine ⟨hfind, fun hlt => ?_, fun hgt => ?_⟩
  · have hno : ¬(now + defaultCacheTTL < t) := by intro h; linarith
    simp [getCached, hfind, hno]
  · simp [getCached, hfind, hgt]

/-- Witness for C6: put at time `0`, hit at time `1` (before the
5-minute TTL), miss at time `now + TTL + 1`. -/
theorem c6_cache_put_get_witness :
    ((1 : GoTime) < 0 + defaultCacheTTL ∧
      getCached (setCached ⟨true, []⟩ 0 "1234567890" ⟨"1234567890"⟩) 1
        "1234567890" = some ⟨"1234567890"⟩) ∧
    ((0 : GoTime) + defaultCacheTTL < 300000000001 ∧
      getCached (setCached ⟨true, []⟩ 0 "1234567890" ⟨"1234567890"⟩)
        300000000001 "1234567890" = none) :=
  ⟨⟨by decide,
      (c6_cache_put_get ⟨true, []⟩ 0 1 "1234567890" ⟨"1234567890"⟩).2.1 (by decide)⟩,
    ⟨by decide,
      (c6_cache_put_get ⟨true, []⟩ 0 300000000001 "1234567890"
        ⟨"1234567890"⟩).2.2 (by decide)⟩⟩

/-! ## Retry engine lemmas -/

theorem retryGo_zero (cfg : RetryConfig) (attempts : Nat → Except GoError Unit)
    (cancel : Nat → Bool) (a : Nat) (le : Option GoError) :
    retryGo cfg attempts cancel 0 a le =
      ⟨.error (.maxRetriesExceeded le), 0, []⟩ := rfl

theorem retryGo_succ (cfg : RetryConfig) (attempts : Nat → Except GoError Unit)
    (cancel : Nat → Bool) (fuel a : Nat) (le : Option GoError) :
    retryGo cfg attempts cancel (fuel + 1) a le =
      if 0 < a && cancel a then ⟨.error .cancelled, 0, []⟩
      else
        match attempts a with
        | .ok _ => ⟨.ok (), 1, if 0 < a then [backoffDelay cfg a] else []⟩
        | .error e =>
          if shouldRetry e then
            ⟨(retryGo cfg attempts cancel fuel (a + 1) (some e)).outcome,
             (retryGo cfg attempts cancel fuel (a + 1) (some e)).attemptsMade + 1,
             (if 0 < a then [backoffDelay cfg a] else []) ++
               (retryGo cfg attempts cancel fuel (a + 1) (some e)).waits⟩
          else ⟨.error e, 1, if 0 < a then [backoffDelay cfg a] else []⟩ := rfl

theorem retryGo_step_fail (cfg : RetryConfig) (attempts : Nat → Except GoError Unit)
    (cancel : Nat → Bool) (fuel a : Nat) (le : Option GoError) (e : GoError)
    (hA : attempts a = .error e) (hR : shouldRetry e = true)
    (hcan : 0 < a → cancel a = false) :
    retryGo cfg attempts cancel (fuel + 1) a le =
      ⟨(retryGo cfg attempts cancel fuel (a + 1) (some e)).outcome,
       (retryGo cfg attempts cancel fuel (a + 1) (some e)).attemptsMade + 1,
       (if 0 < a then [backoffDelay cfg a] else []) ++
         (retryGo cfg attempts cancel fuel (a + 1) (some e)).waits⟩ := by
  have hcond : (decide (0 < a) && cancel a) = false := by
    cases Nat.eq_zero_or_pos a with
    | inl h => subst h; simp
    | inr h => rw [hcan h]; simp
  rw [retryGo_succ, hA]
  simp [hcond, hR]

theorem retryGo_step_fatal (cfg : RetryConfig) (attempts : Nat → Except GoError Unit)
    (cancel : Nat → Bool) (fuel a : Nat) (le : Option GoError) (e : GoError)
    (hA : attempts a = .error e) (hR : shouldRetry e = false)
    (hcan : 0 < a → cancel a = false) :
    retryGo cfg attempts cancel (fuel + 1) a le =
      ⟨.error e, 1, if 0 < a then [backoffDelay cfg a] else []⟩ := by
  have hcond : (decide (0 < a) && cancel a) = false := by
    cases Nat.eq_zero_or_pos a with
    | inl h => subst h; simp
    | inr h => rw [hcan h]; simp
  rw [retryGo_succ, hA]
  simp [hcond, hR]

theorem retryGo_step_ok (cfg : RetryConfig) (attempts : Nat → Except GoError Unit)
    (cancel : Nat → Bool) (fuel a : Nat) (le : Option GoError) (u : Unit)
    (hA : attempts a = .ok u) (hcan : 0 < a → cancel a = false) :
    retryGo cfg attempts cancel (fuel + 1) a le =
      ⟨.ok (), 1, if 0 < a then [backoffDelay cfg a] else []⟩ := by
  have hcond : (decide (0 < a) && cancel a) = false := by
    cases Nat.eq_zero_or_pos a with
    | inl h => subst h; simp
    | inr h => rw [hcan h]; simp
  rw [retryGo_succ, hA]
  simp [hcond]

/-! ## Claim C1: retry exhaustion -/

theorem retryGo_allFail (cfg : RetryConfig) (attempts : Nat → Except GoError Unit)
    (cancel : Nat → Bool) (errF : Nat → GoError)
    (hfail : ∀ n, attempts n = .error (errF n))
    (hretry : ∀ n, shouldRetry (errF n) = true)
    (hcancel : ∀ n, cancel n = false) :
    ∀ fuel a le,
      (retryGo cfg attempts cancel (fuel + 1) a le).outcome =
        .error (.maxRetriesExceeded (some (errF (a + fuel)))) ∧
      (retryGo cfg attempts cancel (fuel + 1) a le).attemptsMade = fuel + 1 := by
  intro fuel
  induction fuel with
  | zero =>
    intro a le
    rw [retryGo_step_fail cfg attempts cancel 0 a le (errF a) (hfail a) (hretry a)
      (fun _ => hcancel a)]
    simp [retryGo_zero]
  | succ n ih =>
    intro a le
    rw [retryGo_step_fail cfg attempts cancel (n + 1) a le (errF a) (hfail a)
      (hretry a) (fun _ => hcancel a)]
    obtain ⟨ho, hm⟩ := ih (a + 1) (some (errF a))
    have hidx : a + 1 + n = a + (n + 1) := by omega
    rw [hidx] at ho
    exact ⟨ho, by rw [hm]⟩

/-- **C1.** For every retry policy with `MaxRetries = R` and a transport
call failing with a retryable error on every attempt, `doRequestWithRetry`
performs exactly `R + 1` attempts and returns the terminal
`"max retries exceeded"` error wrapping the last observed failure; and
with `MaxRetries = 0` it performs exactly one attempt, no retry,
regardless of how the attempt's error (if any) is classified. -/
theorem c1_retries_exhausted (cfg : RetryConfig)
    (attempts : Nat → Except GoError Unit) (cancel : Nat → Bool)
    (errF : Nat → GoError)
    (hfail : ∀ n, attempts n = .error (errF n))
    (hretry : ∀ n, shouldRetry (errF n) = true)
    (hcancel : ∀ n, cancel n = false) :
    (doRequestWithRetry cfg attempts cancel).attemptsMade = cfg.MaxRetries + 1 ∧
    (doRequestWithRetry cfg attempts cancel).outcome =
      .error (.maxRetriesExceeded (some (errF cfg.MaxRetries))) ∧
    ∀ (attempts2 : Nat → Except GoError Unit) (cancel2 : Nat → Bool),
      cfg.MaxRetries = 0 →
      (doRequestWithRetry cfg attempts2 cancel2).attemptsMade = 1 := by
  obtain ⟨ho, hm⟩ :=
    retryGo_allFail cfg attempts cancel errF hfail hretry hcancel cfg.MaxRetries 0 none
  refine ⟨by rw [doRequestWithRetry]; exact hm, ?_, ?_⟩
  · rw [doRequestWithRetry, ho]
    simp
  · intro attempts2 cancel2 h0
    rw [doRequestWithRetry, h0, retryGo_succ]
    cases hA : attempts2 0 with
    | ok u => simp [hA]
    | error e =>
      cases hR : shouldRetry e with
      | true => simp [hA, hR, retryGo_zero]
      | false => simp [hA, hR]

/-- Witness for C1: `MaxRetries = 2` with a permanently failing 503
transient fault yields exactly 3 attempts and the terminal wrapper
around the last 503. -/
theorem c1_retries_exhausted_witness :
    (doRequestWithRetry ⟨2, 100000000, 5000000000, 2⟩
      (fun _ => .error (.APIError 503 "unavailable")) (fun _ => false)).attemptsMade
        = 3 ∧
    (doRequestWithRetry ⟨2, 100000000, 5000000000, 2⟩
      (fun _ => .error (.APIError 503 "unavailable")) (fun _ => false)).outcome
        = .error (.maxRetriesExceeded (some (.APIError 503 "unavailable"))) :=
  ⟨(c1_retries_exhausted ⟨2, 100000000, 5000000000, 2⟩
      (fun _ => .error (.APIError 503 "unavailable")) (fun _ => false)
      (fun _ => .APIError 503 "unavailable")
      (fun _ => rfl) (fun _ => rfl) (fun _ => rfl)).1,
   (c1_retries_exhausted ⟨2, 100000000, 5000000000, 2⟩
      (fun _ => .error (.APIError 503 "unavailable")) (fun _ => false)
      (fun _ => .APIError 503 "unavailable")
      (fun _ => rfl) (fun _ => rfl) (fun _ => rfl)).2.1⟩

/-! ## Claim C3: fatal client errors -/

/-- **C3.** A response whose status is a non-429 client error (non-2xx,
below 500, not 429) is classified non-retryable: the retry engine
performs exactly one attempt, waits no backoff delay, and returns the
`APIError` itself regardless of the remaining retry budget; statuses
`≥ 500` and `429` are classified retryable. -/
theorem c3_fatal_no_retry (cfg : RetryConfig) (cancel : Nat → Bool)
    (status : Int) (body : String)
    (h2xx : ¬(200 ≤ status ∧ status < 300)) (h500 : status < 500)
    (h429 : status ≠ 429) :
    (doRequestWithRetry cfg (fun _ => doRequest (.response status true body))
      cancel).attemptsMade = 1 ∧
    (doRequestWithRetry cfg (fun _ => doRequest (.response status true body))
      cancel).waits = [] ∧
    (doRequestWithRetry cfg (fun _ => doRequest (.response status true body))
      cancel).outcome = .error (.APIError status
        ("API returned status " ++ toString status ++ ": " ++ body)) ∧
    ∀ (s : Int) (m : String), 500 ≤ s ∨ s = 429 →
      shouldRetry (.APIError s m) = true := by
  have hne : status ≠ 200 := by
    intro h
    subst h
    exact h2xx ⟨by norm_num, by norm_num⟩
  have hreq : doRequest (.response status true body) =
      .error (.APIError status
        ("API returned status " ++ toString status ++ ": " ++ body)) := by
    simp [doRequest, hne]
  have hsr : shouldRetry (.APIError status
      ("API returned status " ++ toString status ++ ": " ++ body)) = false := by
    simp [shouldRetry, h429]
    omega
  rw [doRequestWithRetry,
    retryGo_step_fatal cfg _ cancel cfg.MaxRetries 0 none _ hreq hsr
      (fun h => absurd h (Nat.lt_irrefl 0))]
  refine ⟨rfl, by simp, rfl, ?_⟩
  intro s m hs
  rcases hs with h5 | h4
  · simp [shouldRetry, h5]
  · simp [shouldRetry, h4]

/-- Witness for C3: a single 404 response yields one attempt, no delay,
and the 404 `APIError` with the default policy (budget 3). -/
theorem c3_fatal_no_retry_witness :
    (doRequestWithRetry ⟨3, 100000000, 5000000000, 2⟩
      (fun _ => doRequest (.response 404 true "not found"))
      (fun _ => false)).attemptsMade = 1 ∧
    (doRequestWithRetry ⟨3, 100000000, 5000000000, 2⟩
      (fun _ => doRequest (.response 404 true "not found"))
      (fun _ => false)).waits = [] ∧
    (doRequestWithRetry ⟨3, 100000000, 5000000000, 2⟩
      (fun _ => doRequest (.response 404 true "not found"))
      (fun _ => false)).outcome = .error (.APIError 404
        ("API returned status " ++ toString (404 : Int) ++ ": " ++ "not found")) :=
  ⟨(c3_fatal_no_retry ⟨3, 100000000, 5000000000, 2⟩ (fun _ => false) 404
      "not found" (by decide) (by decide) (by decide)).1,
   (c3_fatal_no_retry ⟨3, 100000000, 5000000000, 2⟩ (fun _ => false) 404
      "not found" (by decide) (by decide) (by decide)).2.1,
   (c3_fatal_no_retry ⟨3, 100000000, 5000000000, 2⟩ (fun _ => false) 404
      "not found" (by decide) (by decide) (by decide)).2.2.1⟩

/-! ## Claim C4: backoff delay schedule -/

theorem map_range_offset (f : Nat → ℚ) (a k : Nat) :
    f a :: (List.range k).map (fun i => f (a + 1 + i)) =
      (List.range (k + 1)).map (fun i => f (a + i)) := by
  rw [List.range_succ_eq_map, List.map_cons, List.map_map]
  simp only [Nat.add_zero]
  congr 1
  apply List.map_congr_left
  intro i _
  simp only [Function.comp_apply]
  congr 1
  omega

theorem retryGo_waits_range (cfg : RetryConfig)
    (attempts : Nat → Except GoError Unit) (cancel : Nat → Bool) :
    ∀ fuel a le, ∃ k,
      (retryGo cfg attempts cancel fuel a le).waits =
        (List.range k).map (fun i => backoffDelay cfg (Nat.max 1 a + i)) := by
  intro fuel
  induction fuel with
  | zero => intro a le; exact ⟨0, by simp [retryGo_zero]⟩
  | succ n ih =>
    intro a le
    by_cases hcB : (decide (0 < a) && cancel a) = true
    · rw [retryGo_succ, if_pos hcB]
      exact ⟨0, by simp⟩
    · have hcan : 0 < a → cancel a = false := by
        intro hpos
        cases hcv : cancel a
        · rfl
        · exact absurd (by simp [hcv, hpos]) hcB
      cases hA : attempts a with
      | ok u =>
        rw [retryGo_step_ok cfg attempts cancel n a le u hA hcan]
        cases Nat.eq_zero_or_pos a with
        | inl h0 => subst h0; exact ⟨0, by simp⟩
        | inr hpos =>
          refine ⟨1, ?_⟩
          show (if 0 < a then [backoffDelay cfg a] else []) = _
          rw [if_pos hpos, show List.range 1 = [0] from rfl]
          simp [Nat.max_eq_right hpos]
      | error e =>
        cases hR : shouldRetry e with
        | false =>
          rw [retryGo_step_fatal cfg attempts cancel n a le e hA hR hcan]
          cases Nat.eq_zero_or_pos a with
          | inl h0 => subst h0; exact ⟨0, by simp⟩
          | inr hpos =>
            refine ⟨1, ?_⟩
            show (if 0 < a then [backoffDelay cfg a] else []) = _
            rw [if_pos hpos, show List.range 1 = [0] from rfl]
            simp [Nat.max_eq_right hpos]
        | true =>
          rw [retryGo_step_fail cfg attempts cancel n a le e hA hR hcan]
          obtain ⟨k, hk⟩ := ih (a + 1) (some e)
          simp only [Nat.max_eq_right (show 1 ≤ a + 1 by omega)] at hk
          cases Nat.eq_zero_or_pos a with
          | inl h0 =>
            subst h0
            refine ⟨k, ?_⟩
            show (if 0 < 0 then [backoffDelay cfg 0] else []) ++
                (retryGo cfg attempts cancel n 1 (some e)).waits =
              (List.range k).map (fun i => backoffDelay cfg (Nat.max 1 0 + i))
            rw [if_neg (lt_irrefl 0), List.nil_append, hk]
            simp only [Nat.zero_add, show Nat.max 1 0 = 1 from rfl]
          | inr hpos =>
            refine ⟨k + 1, ?_⟩
            show (if 0 < a then [backoffDelay cfg a] else []) ++
                (retryGo cfg attempts cancel n (a + 1) (some e)).waits =
              (List.range (k + 1)).map (fun i => backoffDelay cfg (Nat.max 1 a + i))
            rw [if_pos hpos, hk, List.singleton_append]
            simp only [Nat.max_eq_right hpos]
            exact map_range_offset (fun j => backoffDelay cfg j) a k

/-- **C4.** The delay waited before the `n`-th retry (`n ≥ 1`) equals
`min(MaxDelay, InitialDelay * BackoffMultiplier^(n-1))`; every run's wait
list is exactly the schedule `backoffDelay 1, backoffDelay 2, ...` (so
the first attempt is performed with no preceding delay, and a run whose
first attempt succeeds waits nothing); and for the documented
configuration `InitialDelay = 100ms, multiplier = 2.0, MaxDelay = 5s`
the delays are 100ms, 200ms, 400ms, ... capped at 5s. -/
theorem c4_backoff_delays (cfg : RetryConfig)
    (attempts : Nat → Except GoError Unit) (cancel : Nat → Bool) (n : Nat)
    (hn : 1 ≤ n) :
    backoffDelay cfg n =
      min cfg.MaxDelay (cfg.InitialDelay * cfg.BackoffMultiplier ^ (n - 1)) ∧
    (∃ k, (doRequestWithRetry cfg attempts cancel).waits =
      (List.range k).map (fun i => backoffDelay cfg (i + 1))) ∧
    (doRequestWithRetry cfg (fun _ => .ok ()) cancel).waits = [] ∧
    (List.range 8).map (fun i => backoffDelay ⟨3, 100000000, 5000000000, 2⟩ (i + 1)) =
      [100000000, 200000000, 400000000, 800000000,
       1600000000, 3200000000, 5000000000, 5000000000] := by
  refine ⟨?_, ?_, ?_, ?_⟩
  · simp only [backoffDelay]
    rcases le_or_lt (cfg.InitialDelay * cfg.BackoffMultiplier ^ (n - 1))
      cfg.MaxDelay with h | h
    · rw [if_neg (not_lt.mpr h), min_eq_right h]
    · rw [if_pos h, min_eq_left h.le]
  · obtain ⟨k, hk⟩ :=
      retryGo_waits_range cfg attempts cancel (cfg.MaxRetries + 1) 0 none
    refine ⟨k, ?_⟩
    rw [doRequestWithRetry, hk]
    have hfun : (fun i => backoffDelay cfg (Nat.max 1 0 + i)) =
        (fun i => backoffDelay cfg (i + 1)) := by
      funext i
      congr 1
      rw [show Nat.max 1 0 = 1 from rfl]
      omega
    rw [hfun]
  · rw [doRequestWithRetry, retryGo_succ]
    simp
  · have d1 : backoffDelay ⟨3, 100000000, 5000000000, 2⟩ 1 = 100000000 := by
      show (if (5000000000 : ℚ) < 100000000 * 2 ^ (1 - 1) then (5000000000 : ℚ)
        else 100000000 * 2 ^ (1 - 1)) = 100000000
      rw [if_neg (by norm_num)]
      norm_num
    have d2 : backoffDelay ⟨3, 100000000, 5000000000, 2⟩ 2 = 200000000 := by
      show (if (5000000000 : ℚ) < 100000000 * 2 ^ (2 - 1) then (5000000000 : ℚ)
        else 100000000 * 2 ^ (2 - 1)) = 200000000
      rw [if_neg (by norm_num)]
      norm_num
    have d3 : backoffDelay ⟨3, 100000000, 5000000000, 2⟩ 3 = 400000000 := by
      show (if (5000000000 : ℚ) < 100000000 * 2 ^ (3 - 1) then (5000000000 : ℚ)
        else 100000000 * 2 ^ (3 - 1)) = 400000000
      rw [if_neg (by norm_num)]
      norm_num
    have d4 : backoffDelay ⟨3, 100000000, 5000000000, 2⟩ 4 = 800000000 := by
      show (if (5000000000 : ℚ) < 100000000 * 2 ^ (4 - 1) then (5000000000 : ℚ)
        else 100000000 * 2 ^ (4 - 1)) = 800000000
      rw [if_neg (by norm_num)]
      norm_num
    have d5 : backoffDelay ⟨3, 100000000, 5000000000, 2⟩ 5 = 1600000000 := by
      show (if (5000000000 : ℚ) < 100000000 * 2 ^ (5 - 1) then (5000000000 : ℚ)
        else 100000000 * 2 ^ (5 - 1)) = 1600000000
      rw [if_neg (by norm_num)]
      norm_num
    have d6 : backoffDelay ⟨3, 100000000, 5000000000, 2⟩ 6 = 3200000000 := by
      show (if (5000000000 : ℚ) < 100000000 * 2 ^ (6 - 1) then (5000000000 : ℚ)
        else 100000000 * 2 ^ (6 - 1)) = 3200000000
      rw [if_neg (by norm_num)]
      norm_num
    have d7 : backoffDelay ⟨3, 100000000, 5000000000, 2⟩ 7 = 5000000000 := by
      show (if (5000000000 : ℚ) < 100000000 * 2 ^ (7 - 1) then (5000000000 : ℚ)
        else 100000000 * 2 ^ (7 - 1)) = 5000000000
      rw [if_pos (by norm_num)]
    have d8 : backoffDelay ⟨3, 100000000, 5000000000, 2⟩ 8 = 5000000000 := by
      show (if (5000000000 : ℚ) < 100000000 * 2 ^ (8 - 1) then (5000000000 : ℚ)
        else 100000000 * 2 ^ (8 - 1)) = 5000000000
      rw [if_pos (by norm_num)]
    rw [show List.range 8 = [0, 1, 2, 3, 4, 5, 6, 7] from rfl]
    simp only [List.map_cons, List.map_nil]
    norm_num [d1, d2, d3, d4, d5, d6, d7, d8]

/-- Witness for C4 at `n = 1` with the default configuration: the first
retry's delay is `min(5s, 100ms * 2^0) = 100ms`. -/
theorem c4_backoff_delays_witness :
    1 ≤ 1 ∧
    backoffDelay ⟨3, 100000000, 5000000000, 2⟩ 1 =
      min (5000000000 : ℚ) (100000000 * 2 ^ (1 - 1)) :=
  ⟨le_refl 1,
   (c4_backoff_delays ⟨3, 100000000, 5000000000, 2⟩ (fun _ => .ok ())
      (fun _ => false) 1 (le_refl 1)).1⟩

/-! ## Claim C5: cancellation during a backoff wait -/

theorem retryGo_cancelled (cfg : RetryConfig)
    (attempts : Nat → Except GoError Unit) (cancel : Nat → Bool) (K : Nat)
    (hfailing : ∀ n, n < K → ∃ e, attempts n = .error e ∧ shouldRetry e = true)
    (hquiet : ∀ j, 1 ≤ j → j < K → cancel j = false)
    (hfire : cancel K = true) (hK : 1 ≤ K) :
    ∀ fuel a le, a ≤ K → K < a + fuel →
      (retryGo cfg attempts cancel fuel a le).outcome = .error .cancelled ∧
      (retryGo cfg attempts cancel fuel a le).attemptsMade = K - a := by
  intro fuel
  induction fuel with
  | zero =>
    intro a le h1 h2
    exact absurd h2 (by omega)
  | succ n ih =>
    intro a le haK hlt
    rcases eq_or_lt_of_le haK with heq | hltK
    · have hcond : (decide (0 < a) && cancel a) = true := by
        rw [heq, hfire]
        simp [show 0 < K from hK]
      rw [retryGo_succ, if_pos hcond]
      refine ⟨rfl, ?_⟩
      show (0 : Nat) = K - a
      omega
    · obtain ⟨e, hA, hR⟩ := hfailing a hltK
      rw [retryGo_step_fail cfg attempts cancel n a le e hA hR
        (fun hpos => hquiet a hpos hltK)]
      obtain ⟨ho, hm⟩ := ih (a + 1) (some e) (by omega) (by omega)
      refine ⟨ho, ?_⟩
      simp only [hm]
      omega

/-- **C5.** If the cancellation signal fires during the pending backoff
wait before the `K`-th retry (all earlier attempts having failed
retryably and no earlier wait having been cancelled), the engine returns
the `cancelled` error, has performed exactly the `K` attempts that
preceded the wait — so no network attempt starts after the signal fires —
and the `cancelled` error is distinguishable from the
retries-exhausted error. -/
theorem c5_cancel_during_wait (cfg : RetryConfig)
    (attempts : Nat → Except GoError Unit) (cancel : Nat → Bool) (K : Nat)
    (hK1 : 1 ≤ K) (hKR : K ≤ cfg.MaxRetries)
    (hfailing : ∀ n, n < K → ∃ e, attempts n = .error e ∧ shouldRetry e = true)
    (hquiet : ∀ j, 1 ≤ j → j < K → cancel j = false)
    (hfire : cancel K = true) :
    (doRequestWithRetry cfg attempts cancel).outcome = .error .cancelled ∧
    (doRequestWithRetry cfg attempts cancel).attemptsMade = K ∧
    ∀ last, GoError.cancelled ≠ GoError.maxRetriesExceeded last := by
  obtain ⟨ho, hm⟩ := retryGo_cancelled cfg attempts cancel K hfailing hquiet hfire
    hK1 (cfg.MaxRetries + 1) 0 none (by omega) (by omega)
  refine ⟨by rw [doRequestWithRetry]; exact ho, ?_, fun last h => GoError.noConfusion h⟩
  rw [doRequestWithRetry, hm]
  omega

/-- Witness for C5: permanently failing 500s under a budget of 3 retries,
with the signal firing during the wait before retry 2: the run is
cancelled after exactly 2 attempts. -/
theorem c5_cancel_during_wait_witness :
    (doRequestWithRetry ⟨3, 100000000, 5000000000, 2⟩
      (fun _ => .error (.APIError 500 "err"))
      (fun n => decide (2 ≤ n))).outcome = .error .cancelled ∧
    (doRequestWithRetry ⟨3, 100000000, 5000000000, 2⟩
      (fun _ => .error (.APIError 500 "err"))
      (fun n => decide (2 ≤ n))).attemptsMade = 2 :=
  ⟨(c5_cancel_during_wait ⟨3, 100000000, 5000000000, 2⟩
      (fun _ => .error (.APIError 500 "err")) (fun n => decide (2 ≤ n)) 2
      (by decide) (by decide)
      (fun n _ => ⟨.APIError 500 "err", rfl, rfl⟩)
      (fun j h1 h2 => by simp only [decide_eq_false_iff_not]; omega)
      rfl).1,
   (c5_cancel_during_wait ⟨3, 100000000, 5000000000, 2⟩
      (fun _ => .error (.APIError 500 "err")) (fun n => decide (2 ≤ n)) 2
      (by decide) (by decide)
      (fun n _ => ⟨.APIError 500 "err", rfl, rfl⟩)
      (fun j h1 h2 => by simp only [decide_eq_false_iff_not]; omega)
      rfl).2.1⟩

/-! ## Claim C8: success/error boundary of doRequest -/

/-- **C8, counterexample.** The claim says the success/error boundary of
`doRequest` is exactly the 2xx status class; but `204` is a 2xx status
and `doRequest` does not treat it as success (the code tests
`resp.StatusCode != http.StatusOK`, i.e. only `200` is success). -/
theorem c8_counterexample :
    ((200 : Int) ≤ 204 ∧ (204 : Int) < 300) ∧
    doRequest (.response 204 true "") ≠ .ok () :=
  ⟨⟨by norm_num, by norm_num⟩, by simp [doRequest]⟩

/-- **C8, amended.** The success boundary of `doRequest` is exactly
status `200` (with a decodable body): every non-`200` status — including
2xx statuses other than 200 — produces an `APIError` carrying that
status, classified retryable exactly when the status is `≥ 500` or
`429`; a transport-level failure produces a wrapped error that is always
classified retryable. -/
theorem c8_success_boundary (status : Int) (decodeOk : Bool) (body msg : String) :
    (doRequest (.response status decodeOk body) = .ok () ↔
      status = 200 ∧ decodeOk = true) ∧
    (status ≠ 200 → doRequest (.response status decodeOk body) =
      .error (.APIError status
        ("API returned status " ++ toString status ++ ": " ++ body))) ∧
    shouldRetry (.APIError status msg) = (decide (500 ≤ status) || status == 429) ∧
    (doRequest (.failure msg) = .error (.wrap "http request failed" (.errorf msg)) ∧
      shouldRetry (.wrap "http request failed" (.errorf msg)) = true) := by
  refine ⟨?_, ?_, rfl, rfl, rfl⟩
  · constructor
    · intro h
      by_cases h2 : status = 200
      · subst h2
        cases decodeOk with
        | true => exact ⟨rfl, rfl⟩
        | false => simp [doRequest] at h
      · simp [doRequest, h2] at h
    · rintro ⟨h2, hd⟩
      subst h2
      subst hd
      simp [doRequest]
  · intro h2
    simp [doRequest, h2]

/-- Witness for the amended C8 at status 204: a 204 response yields the
204 `APIError`, not success. -/
theorem c8_success_boundary_witness :
    ((204 : Int) ≠ 200) ∧
    doRequest (.response 204 true "x") =
      .error (.APIError 204
        ("API returned status " ++ toString (204 : Int) ++ ": " ++ "x")) :=
  ⟨by decide, (c8_success_boundary 204 true "x" "m").2.1 (by decide)⟩

/-! ## Claim C2: batch aggregation -/

/-- Whether a per-key fetch succeeded. -/
def fetchOk (r : Except GoError Provider) : Bool :=
  match r with
  | .ok _ => true
  | .error _ => false

theorem batchFanOut_errors (fetch : String → Except GoError Provider)
    (npis : List String) :
    (batchFanOut fetch npis).2 = npis.filterMap (fun k =>
      match fetch k with
      | .error e => some (.wrap ("failed to fetch NPI " ++ k) e)
      | .ok _ => none) := by
  induction npis with
  | nil => rfl
  | cons npi rest ih =>
    cases h : fetch npi with
    | ok p => simp [batchFanOut, h, List.filterMap_cons, ih]
    | error e => simp [batchFanOut, h, List.filterMap_cons, ih]

theorem batchFanOut_errors_length (fetch : String → Except GoError Provider)
    (npis : List String) :
    (batchFanOut fetch npis).2.length =
      (npis.filter (fun k2 => !fetchOk (fetch k2))).length := by
  induction npis with
  | nil => rfl
  | cons npi rest ih =>
    cases h : fetch npi with
    | ok p => simp [batchFanOut, h, fetchOk, List.filter_cons, ih]
    | error e => simp [batchFanOut, h, fetchOk, List.filter_cons, ih]

theorem batchFanOut_errors_mem (fetch : String → Except GoError Provider)
    (npis : List String) :
    ∀ er ∈ (batchFanOut fetch npis).2, ∃ k0 e0, k0 ∈ npis ∧
      fetch k0 = .error e0 ∧
      er = .wrap ("failed to fetch NPI " ++ k0) e0 := by
  intro er hmem
  rw [batchFanOut_errors] at hmem
  obtain ⟨k0, hk0, hf⟩ := List.mem_filterMap.mp hmem
  cases h : fetch k0 with
  | ok p => rw [h] at hf; simp at hf
  | error e0 =>
    rw [h] at hf
    simp at hf
    exact ⟨k0, e0, hk0, h, hf.symm⟩

theorem batchFanOut_find (fetch : String → Except GoError Provider)
    (npis : List String) (k : String) (p : Provider) :
    assocFind (batchFanOut fetch npis).1 k = some p ↔
      (k ∈ npis ∧ fetch k = .ok p) := by
  induction npis with
  | nil => simp [batchFanOut, assocFind]
  | cons npi rest ih =>
    cases h : fetch npi with
    | ok q =>
      by_cases hk : npi = k
      · subst hk
        simp [batchFanOut, h, assocFind_assocInsert]
      · have hk2 : ¬(k = npi) := fun hh => hk hh.symm
        simp [batchFanOut, h, assocFind_assocInsert, hk, hk2, ih]
    | error e =>
      by_cases hk : k = npi
      · subst hk
        simp [batchFanOut, h, ih]
      · simp [batchFanOut, h, ih, hk]

/-- **C2.** For every non-empty batch, `GetProvidersByNPIs` resolves
every key (no fail-fast short-circuit): the returned mapping contains
exactly the keys whose fetch succeeded, the returned error is `none`
exactly when every key succeeded, and as soon as one key fails the
returned error is the aggregate `batchFailure` carrying the number of
failed keys and the first failure's wrapped detail (which identifies a
failing key). -/
theorem c2_batch_aggregation (npis : List String)
    (fetch : String → Except GoError Provider) (hne : npis ≠ []) :
    (∀ k p, assocFind (getProvidersByNPIs npis fetch).1 k = some p ↔
      (k ∈ npis ∧ fetch k = .ok p)) ∧
    ((getProvidersByNPIs npis fetch).2 = none ↔
      ∀ k ∈ npis, ∃ p, fetch k = .ok p) ∧
    (∀ k ∈ npis, ∀ e, fetch k = .error e →
      ∃ n k0 e0, (getProvidersByNPIs npis fetch).2 =
          some (.batchFailure n (.wrap ("failed to fetch NPI " ++ k0) e0)) ∧
        k0 ∈ npis ∧ fetch k0 = .error e0 ∧ 0 < n ∧
        n = (npis.filter (fun k2 => !fetchOk (fetch k2))).length) := by
  have hres : (getProvidersByNPIs npis fetch).1 = (batchFanOut fetch npis).1 := by
    cases herrs : (batchFanOut fetch npis).2 with
    | nil => simp [getProvidersByNPIs, hne, herrs]
    | cons er rest => simp [getProvidersByNPIs, hne, herrs]
  refine ⟨?_, ?_, ?_⟩
  · intro k p
    rw [hres, batchFanOut_find]
  · have h2 : (getProvidersByNPIs npis fetch).2 = none ↔
        (batchFanOut fetch npis).2 = [] := by
      cases herrs : (batchFanOut fetch npis).2 with
      | nil => simp [getProvidersByNPIs, hne, herrs]
      | cons er rest => simp [getProvidersByNPIs, hne, herrs]
    rw [h2, batchFanOut_errors, List.filterMap_eq_nil_iff]
    constructor
    · intro h k hk
      have hfk := h k hk
      cases hf : fetch k with
      | ok p => exact ⟨p, rfl⟩
      | error e => rw [hf] at hfk; simp at hfk
    · intro h k hk
      obtain ⟨p, hp⟩ := h k hk
      simp [hp]
  · intro k hk e hke
    have hmemf : k ∈ npis.filter (fun k2 => !fetchOk (fetch k2)) :=
      List.mem_filter.mpr ⟨hk, by simp [hke, fetchOk]⟩
    have hlen : 0 < (batchFanOut fetch npis).2.length := by
      rw [batchFanOut_errors_length]
      exact List.length_pos_of_mem hmemf
    cases herrs : (batchFanOut fetch npis).2 with
    | nil => rw [herrs] at hlen; simp at hlen
    | cons er rest =>
      have hmem : er ∈ (batchFanOut fetch npis).2 := by
        rw [herrs]
        exact List.mem_cons_self er rest
      obtain ⟨k0, e0, hk0, he0, hw⟩ := batchFanOut_errors_mem fetch npis er hmem
      refine ⟨(er :: rest).length, k0, e0, ?_, hk0, he0, by simp, ?_⟩
      · rw [← hw]
        simp [getProvidersByNPIs, hne, herrs]
      · rw [← herrs, batchFanOut_errors_length]

/-- A concrete per-key fetch behaviour: key 2 always fails, every other
key succeeds. -/
def fetchW (k : String) : Except GoError Provider :=
  if k = "2222222222" then .error (.errorf "boom") else .ok ⟨k⟩

/-- Witness for C2: a batch of 3 keys where the second always fails;
the success mapping contains key 1 (and the aggregate error reports the
single failure). -/
theorem c2_batch_aggregation_witness :
    (["1111111111", "2222222222", "3333333333"] ≠ ([] : List String)) ∧
    (assocFind (getProvidersByNPIs ["1111111111", "2222222222", "3333333333"]
        fetchW).1 "1111111111" = some ⟨"1111111111"⟩ ↔
      ("1111111111" ∈ ["1111111111", "2222222222", "3333333333"] ∧
        fetchW "1111111111" = .ok ⟨"1111111111"⟩)) :=
  ⟨by decide,
   (c2_batch_aggregation ["1111111111", "2222222222", "3333333333"] fetchW
      (by decide)).1 "1111111111" ⟨"1111111111"⟩⟩

/-! ## Claim C7: disabled cache -/

theorem getProviderByNPI_disabled (c : CacheStore) (now : GoTime) (npi : String)
    (search : Except GoError (List Provider)) (h : c.enabled = false) :
    (getProviderByNPI c now npi search).cache = c ∧
    ∀ ev ∈ (getProviderByNPI c now npi search).events, ev.isCacheOp = false := by
  rw [getProviderByNPI]
  by_cases hn : npi = ""
  · rw [if_pos hn]
    exact ⟨rfl, by simp⟩
  · rw [if_neg hn, if_neg (by simp [h])]
    cases search with
    | error e => exact ⟨rfl, by simp [fetchPhase, FetchEvent.isCacheOp]⟩
    | ok ps =>
      cases ps with
      | nil => exact ⟨rfl, by simp [fetchPhase, FetchEvent.isCacheOp]⟩
      | cons p rest =>
        constructor
        · simp [fetchPhase, h]
        · simp [fetchPhase, h, FetchEvent.isCacheOp]

/-- **C7.** When the cache is disabled, no sequence of fetch operations
ever creates or reads a cache entry: the cache store is left exactly as
it was, and the event trace contains no cache-store operation at all —
in particular no operation that would acquire the cache lock (the
enabled flag is checked before `getCached`/`setCached`, the only
lock-acquiring operations, are ever invoked). -/
theorem c7_cache_disabled (c : CacheStore)
    (ops : List (GoTime × String × Except GoError (List Provider)))
    (h : c.enabled = false) :
    (runFetches c ops).1 = c ∧
    ∀ ev ∈ (runFetches c ops).2, ev.isCacheOp = false := by
  induction ops generalizing c with
  | nil => exact ⟨rfl, by simp [runFetches]⟩
  | cons op rest ih =>
    obtain ⟨now, npi, search⟩ := op
    obtain ⟨hc, hev⟩ := getProviderByNPI_disabled c now npi search h
    have hrec := ih (getProviderByNPI c now npi search).cache (by rw [hc]; exact h)
    constructor
    · simp only [runFetches]
      rw [hrec.1, hc]
    · simp only [runFetches]
      intro ev hev2
      rw [List.mem_append] at hev2
      cases hev2 with
      | inl hl => exact hev ev hl
      | inr hr => exact hrec.2 ev hr

/-- Witness for C7: one fetch against a disabled cache leaves the store
untouched. -/
theorem c7_cache_disabled_witness :
    ((⟨false, []⟩ : CacheStore).enabled = false) ∧
    (runFetches ⟨false, []⟩ [(0, "1234567890", .ok [⟨"1234567890"⟩])]).1 =
      (⟨false, []⟩ : CacheStore) :=
  ⟨rfl,
   (c7_cache_disabled ⟨false, []⟩ [(0, "1234567890", .ok [⟨"1234567890"⟩])] rfl).1⟩

/-! ## Claim C9: concurrency ceiling -/

theorem countRunning_replicate (n : Nat) :
    countRunning (List.replicate n .pending) = 0 := by
  induction n with
  | zero => rfl
  | succ m ih =>
    simp [List.replicate_succ, countRunning, List.countP_cons, ih]

theorem countRunning_set_running (ts : List TaskPhase) (i : Nat) :
    countRunning (ts.set i .running) ≤ countRunning ts + 1 := by
  induction ts generalizing i with
  | nil => simp [countRunning]
  | cons a t ih =>
    cases i with
    | zero =>
      cases a <;> simp [countRunning, List.countP_cons]
    | succ j =>
      have hj := ih j
      simp only [countRunning] at hj ⊢
      cases a <;> simp [List.countP_cons] <;> omega

theorem countRunning_set_done (ts : List TaskPhase) (i : Nat) :
    countRunning (ts.set i .done) ≤ countRunning ts := by
  induction ts generalizing i with
  | nil => simp [countRunning]
  | cons a t ih =>
    cases i with
    | zero =>
      cases a <;> simp [countRunning, List.countP_cons]
    | succ j =>
      have hj := ih j
      simp only [countRunning] at hj ⊢
      cases a <;> simp [List.countP_cons] <;> omega

/-- **C9.** In every state reachable by a batch call, at most 5 per-key
fetches are in flight simultaneously: the counting semaphore
(`make(chan struct{}, 5)`) admits a new fetch only when fewer than 5
slots are held, so `countRunning` never exceeds 5, regardless of how
many keys the batch requests. -/
theorem c9_concurrency_ceiling (s : List TaskPhase) (h : BatchReachable s) :
    countRunning s ≤ 5 := by
  induction h with
  | init n => rw [countRunning_replicate]; omega
  | step hr hstep ih =>
    cases hstep with
    | start i hp hc => exact le_trans (countRunning_set_running _ i) (by omega)
    | finish i hr1 => exact le_trans (countRunning_set_done _ i) ih

/-- Witness for C9: a batch of 20 keys with one task started is a
reachable state, and its in-flight count is within the ceiling. -/
theorem c9_concurrency_ceiling_witness :
    countRunning ((List.replicate 20 TaskPhase.pending).set 0 .running) ≤ 5 :=
  c9_concurrency_ceiling _
    (BatchReachable.step (BatchReachable.init 20)
      (BatchStep.start (List.replicate 20 TaskPhase.pending) 0 (by decide)
        (by decide)))

end Gonpi
